import Mathlib

/-!
Verification of the trip-record backend (src/backend/server.py) against its
natural-language specification.

Modelling conventions, fixed throughout this file:

* A Python `str` holding a trip identifier is modelled as `List Char` so that
  the identifier-manipulating code (`f"{year}_{number}"`, the anchored regex
  `^<year>_`, `trip_id.split("_")[1]`, `int(...)`) can be mirrored operation
  by operation.  Other string fields are opaque payloads and use Lean `String`.
* Money amounts (`party_freight`, `gadi_bhada`, ...) are Python floats in the
  source; every operation the code performs on them is addition, subtraction
  and comparison with `None`, so they are modelled as exact integers `ℤ`
  (the spec itself demands exact decimal arithmetic for amounts).
* The Mongo collection `db.trips` is modelled as a list of documents kept in
  descending `created_at` order: `insert_one` of a freshly created document
  conses it to the front (each creation happens strictly later than every
  stored document), so `find(...).sort("created_at", -1)` is the identity
  ordering and `find_one(..., sort=[("created_at", -1)])` is `List.find?`.
* A document field that Mongo stores as `null` is `Option.none`.  `create_trip`
  inserts `trip_data.model_dump()`, which materialises every optional field,
  so every stored document carries every key (possibly `null`); dictionary
  access `doc.get(k, default)` on such documents never falls back to the
  default.  `settlement_status` and `pod_filename` are absent from the stored
  dict but are defaulted by the `Trip` response model to `"Pending"` / `None`
  on every read, which is observationally the same as storing those defaults.
* A Python run-time exception escaping a handler (e.g. `TypeError` from
  `float - None`) is modelled as an explicit `crash` outcome; it aborts the
  handler before any database write.  The same `crash` outcome covers
  `update_one` being handed an empty update document: when every supplied
  field was `null` or absent, `update_dict` is `{}` and the driver rejects
  `{"$set": {}}` (HTTP 500, no write).
* Endpoints re-validate their return value against a pydantic response
  model.  On the listing path (`response_model=List[Trip]`) the `Trip`
  model requires `party_freight`, so a motor-owner listing whose projection
  removed that field fails response validation (HTTP 500) whenever at least
  one record survives the ownership filter; for every other role the stored
  documents are complete and validation always passes.  This serialization
  step is part of the listing model (`ListRes`); on the other paths the
  returned documents always validate.
-/

namespace TMS

/-- Identifier strings are sequences of characters, mirroring Python `str`. -/
abbrev Str : Type := List Char

/-- Money amounts; see the header comment for the carrier choice. -/
abbrev Money : Type := ℤ

/-! ### Decimal rendering and parsing of natural numbers

`natDigits` mirrors Python's `str(n)` for a non-negative integer `n`;
`parseNat?` mirrors `int(s)` (restricted to plain digit strings, the only
shape the code ever produces), returning `none` where `int` would raise. -/

/-- The character for a single decimal digit `d < 10` (only digits are ever
rendered; the catch-all branch is unreachable from `natDigits`). -/
def digitChar : Nat → Char
  | 0 => '0'
  | 1 => '1'
  | 2 => '2'
  | 3 => '3'
  | 4 => '4'
  | 5 => '5'
  | 6 => '6'
  | 7 => '7'
  | 8 => '8'
  | 9 => '9'
  | _ => '?'

/-- Fuel-driven decimal rendering; the fuel only bounds recursion depth. -/
def natDigitsAux : Nat → Nat → List Char
  | 0, _ => []
  | fuel + 1, n =>
    if n < 10 then [digitChar n] else natDigitsAux fuel (n / 10) ++ [digitChar (n % 10)]

/-- Decimal rendering of a natural number, as Python's `str`. -/
def natDigits (n : Nat) : Str := natDigitsAux (n + 1) n

/-- Numeric value of a decimal digit character, `none` for non-digits. -/
def charDigit? (c : Char) : Option Nat :=
  if 48 ≤ c.toNat ∧ c.toNat ≤ 57 then some (c.toNat - 48) else none

/-- Accumulating decimal evaluation; `none` on any non-digit character. -/
def digitsVal : List Char → Nat → Option Nat
  | [], acc => some acc
  | c :: cs, acc =>
    match charDigit? c with
    | some d => digitsVal cs (acc * 10 + d)
    | none => none

/-- `int(s)` on a digit string: `none` (Python: `ValueError`) on the empty
string or on a non-digit character. -/
def parseNat? (l : Str) : Option Nat :=
  match l with
  | [] => none
  | _ :: _ => digitsVal l 0

/-- Python `s.split(sep)` for a one-character separator. -/
def splitOnChar (sep : Char) : Str → List Str
  | [] => [[]]
  | c :: cs =>
    if c = sep then [] :: splitOnChar sep cs
    else
      match splitOnChar sep cs with
      | [] => [[c]]
      | p :: ps => (c :: p) :: ps

/-- Anchored prefix test, mirroring the anchored regex match `^pat`. -/
def startsWith : Str → Str → Bool
  | [], _ => true
  | _ :: _, [] => false
  | p :: ps, c :: cs => p == c && startsWith ps cs

/-- The identifier `f"{year}_{number}"` built by `generate_trip_id`. -/
def mkTripId (y n : Nat) : Str := natDigits y ++ '_' :: natDigits n

/-- The regex filter `{"trip_id": {"$regex": f"^{current_year}_"}}`. -/
def matchesYear (y : Nat) (tid : Str) : Bool := startsWith (natDigits y ++ ['_']) tid

/-- `int(trip_id.split("_")[1])`: `none` where Python raises
(`IndexError` on fewer than two parts, `ValueError` on a non-numeric part). -/
def parseSeq (tid : Str) : Option Nat :=
  match (splitOnChar '_' tid).get? 1 with
  | some part => parseNat? part
  | none => none

/-! ### Data model

`TripCreateIn`, `TripDoc`, `TripUpdateIn` mirror the pydantic models
`TripCreate`, the stored trip document, and `TripUpdate`.  In `TripUpdateIn`
each field is `Option (Option α)`: the outer layer is presence in the request
body (`model_dump(exclude_unset=True)`), the inner layer is JSON `null`. -/

/-- The authenticated caller: `User.email` and `User.role`. -/
structure UserT where
  email : String
  role : String
deriving DecidableEq, Repr

/-- Mirror of the `TripCreate` request model. -/
structure TripCreateIn where
  loading_date : String
  unloading_date : Option String
  vehicle_number : String
  driver_mobile : String
  is_own_vehicle : Bool
  motor_owner_name : Option String
  motor_owner_mobile : Option String
  gadi_bhada : Option Money
  gadi_advance : Option Money
  party_name : String
  party_mobile : String
  party_freight : Money
  party_advance : Option Money
  tds : Option Money
  from_location : String
  to_location : String
  weight : Option String
  himmali : Option String
  remarks : Option String
  status : String
deriving DecidableEq, Repr

/-- A stored trip document (`trip_dict` as inserted by `create_trip` and
later mutated by `update_trip`). -/
structure TripDoc where
  trip_id : Str
  loading_date : String
  unloading_date : Option String
  vehicle_number : String
  driver_mobile : String
  is_own_vehicle : Bool
  motor_owner_name : Option String
  motor_owner_mobile : Option String
  gadi_bhada : Option Money
  gadi_advance : Option Money
  gadi_balance : Option Money
  party_name : String
  party_mobile : String
  party_freight : Money
  party_advance : Option Money
  party_balance : Option Money
  tds : Option Money
  from_location : String
  to_location : String
  weight : Option String
  himmali : Option String
  remarks : Option String
  status : String
  settlement_status : String
  pod_filename : Option String
  created_by : String
deriving DecidableEq, Repr

/-- Mirror of the `TripUpdate` request model; outer `Option` is field
presence in the request body, inner `Option` is JSON `null`. -/
structure TripUpdateIn where
  loading_date : Option (Option String) := none
  unloading_date : Option (Option String) := none
  vehicle_number : Option (Option String) := none
  driver_mobile : Option (Option String) := none
  is_own_vehicle : Option (Option Bool) := none
  motor_owner_name : Option (Option String) := none
  motor_owner_mobile : Option (Option String) := none
  gadi_bhada : Option (Option Money) := none
  gadi_advance : Option (Option Money) := none
  party_name : Option (Option String) := none
  party_mobile : Option (Option String) := none
  party_freight : Option (Option Money) := none
  party_advance : Option (Option Money) := none
  tds : Option (Option Money) := none
  from_location : Option (Option String) := none
  to_location : Option (Option String) := none
  weight : Option (Option String) := none
  himmali : Option (Option String) := none
  remarks : Option (Option String) := none
  status : Option (Option String) := none
  settlement_status : Option (Option String) := none
deriving DecidableEq, Repr

/-- The trips collection, newest first (descending `created_at`). -/
abbrev Store : Type := List TripDoc

/-- The trip identifiers of a store, newest first. -/
def idsOf (s : Store) : List Str := s.map (fun d => d.trip_id)

/-- `{k: v for k, v in trip_data.model_dump(exclude_unset=True).items()
if v is not None}` membership: a field survives into `update_dict` exactly
when it was present in the request body with a non-`null` value. -/
def jn {α : Type} (x : Option (Option α)) : Option α := x.bind id

/-! ### The identifier allocator (`generate_trip_id`, lines 182-193) -/

/-- `generate_trip_id` over the identifier column only:
`find_one({"trip_id": {"$regex": f"^{year}_"}}, sort=[("created_at", -1)])`
is the first matching identifier in newest-first order; if none exists the
sequence starts at 1, otherwise at `int(last.split("_")[1]) + 1`.
`none` models the `ValueError`/`IndexError` crash on an unparsable match. -/
def genId (y : Nat) (ids : List Str) : Option Str :=
  match ids.find? (matchesYear y) with
  | none => some (mkTripId y 1)
  | some last => (parseSeq last).map (fun k => mkTripId y (k + 1))

/-- `generate_trip_id` against the store. -/
def generateTripId (y : Nat) (s : Store) : Option Str := genId y (idsOf s)

/-! ### `create_trip` (lines 233-254) -/

/-- The inserted document `trip_dict`: the request fields plus the
allocated identifier, the two derived balances (`gadi_balance` stays `None`
for an own vehicle or an unknown `gadi_bhada`; `or 0` defaults a missing
advance), and the provenance stamp. -/
def mkCreatedDoc (caller : UserT) (inp : TripCreateIn) (tid : Str) : TripDoc :=
  { trip_id := tid
    loading_date := inp.loading_date
    unloading_date := inp.unloading_date
    vehicle_number := inp.vehicle_number
    driver_mobile := inp.driver_mobile
    is_own_vehicle := inp.is_own_vehicle
    motor_owner_name := inp.motor_owner_name
    motor_owner_mobile := inp.motor_owner_mobile
    gadi_bhada := inp.gadi_bhada
    gadi_advance := inp.gadi_advance
    gadi_balance :=
      match inp.is_own_vehicle, inp.gadi_bhada with
      | false, some b => some (b - (inp.gadi_advance.getD 0))
      | _, _ => none
    party_name := inp.party_name
    party_mobile := inp.party_mobile
    party_freight := inp.party_freight
    party_advance := inp.party_advance
    party_balance := some (inp.party_freight - (inp.party_advance.getD 0))
    tds := inp.tds
    from_location := inp.from_location
    to_location := inp.to_location
    weight := inp.weight
    himmali := inp.himmali
    remarks := inp.remarks
    status := inp.status
    settlement_status := "Pending"
    pod_filename := none
    created_by := caller.email }

/-- `create_trip`: allocate an identifier, derive both balances, stamp
`created_by`, insert.  `y` is `datetime.now(timezone.utc).year` at the time
of the call.  `none` models the allocator crash (unreachable in practice). -/
def createTrip (caller : UserT) (y : Nat) (inp : TripCreateIn) (s : Store) :
    Option (Store × TripDoc) :=
  (generateTripId y s).map (fun tid => (mkCreatedDoc caller inp tid :: s, mkCreatedDoc caller inp tid))

/-! ### Point lookups and in-place mutation of the collection -/

/-- `find_one({"trip_id": trip_id})`. -/
def findTrip (tid : Str) (s : Store) : Option TripDoc :=
  s.find? (fun d => d.trip_id == tid)

/-- `update_one({"trip_id": tid}, {"$set": ...})`: replace the first
matching document with its merged form. -/
def setFirst (tid : Str) (d' : TripDoc) : Store → Store
  | [] => []
  | d :: ds => if d.trip_id == tid then d' :: ds else d :: setFirst tid d' ds

/-- `delete_one({"trip_id": tid})`: remove the first matching document. -/
def deleteOne (tid : Str) : Store → Store
  | [] => []
  | d :: ds => if d.trip_id == tid then ds else d :: deleteOne tid ds

/-! ### `update_trip` (lines 287-315) -/

/-- Outcome of `update_trip`: HTTP 404, HTTP 403, an escaping run-time
exception (HTTP 500, no write performed), or success carrying the response
document and the new store. -/
inductive UpdRes : Type
  | notFound : UpdRes
  | forbidden : UpdRes
  | crash : UpdRes
  | ok : TripDoc → Store → UpdRes
deriving DecidableEq, Repr

/-- The gadi-balance block (lines 298-302).  `some newBal` is the
`gadi_balance` value after the block, `none` is the `TypeError` raised by
`gadi_bhada - gadi_advance` when the merged advance is `null` (the stored
document always carries the `gadi_advance` key, so `existing_trip.get
("gadi_advance", 0)` returns the stored value — possibly `None` — and the
`0` default is dead). -/
def gadiBalUpd (t : TripDoc) (u : TripUpdateIn) : Option (Option Money) :=
  if (jn u.gadi_bhada).isSome || (jn u.gadi_advance).isSome then
    match (jn u.gadi_bhada).orElse (fun _ => t.gadi_bhada) with
    | some b =>
      match (jn u.gadi_advance).orElse (fun _ => t.gadi_advance) with
      | some a => some (some (b - a))
      | none => none
    | none => some t.gadi_balance
  else some t.gadi_balance

/-- The party-balance block (lines 304-307), same reading: the stored
`party_freight` is always a number, the merged `party_advance` may be
`null`, in which case `party_freight - party_advance` raises. -/
def partyBalUpd (t : TripDoc) (u : TripUpdateIn) : Option (Option Money) :=
  if (jn u.party_freight).isSome || (jn u.party_advance).isSome then
    match (jn u.party_advance).orElse (fun _ => t.party_advance) with
    | some a => some (some ((jn u.party_freight).getD t.party_freight - a))
    | none => none
  else some t.party_balance

/-- The document after `$set` of `update_dict` on the stored document `t`:
each updatable field is overwritten exactly when present and non-`null` in
the request; the two balance fields come from their blocks. -/
def mergeTrip (t : TripDoc) (u : TripUpdateIn) : Option TripDoc :=
  (gadiBalUpd t u).bind (fun gBal =>
    (partyBalUpd t u).bind (fun pBal =>
      some
        { trip_id := t.trip_id
          loading_date := (jn u.loading_date).getD t.loading_date
          unloading_date := (jn u.unloading_date).orElse (fun _ => t.unloading_date)
          vehicle_number := (jn u.vehicle_number).getD t.vehicle_number
          driver_mobile := (jn u.driver_mobile).getD t.driver_mobile
          is_own_vehicle := (jn u.is_own_vehicle).getD t.is_own_vehicle
          motor_owner_name := (jn u.motor_owner_name).orElse (fun _ => t.motor_owner_name)
          motor_owner_mobile := (jn u.motor_owner_mobile).orElse (fun _ => t.motor_owner_mobile)
          gadi_bhada := (jn u.gadi_bhada).orElse (fun _ => t.gadi_bhada)
          gadi_advance := (jn u.gadi_advance).orElse (fun _ => t.gadi_advance)
          gadi_balance := gBal
          party_name := (jn u.party_name).getD t.party_name
          party_mobile := (jn u.party_mobile).getD t.party_mobile
          party_freight := (jn u.party_freight).getD t.party_freight
          party_advance := (jn u.party_advance).orElse (fun _ => t.party_advance)
          party_balance := pBal
          tds := (jn u.tds).orElse (fun _ => t.tds)
          from_location := (jn u.from_location).getD t.from_location
          to_location := (jn u.to_location).getD t.to_location
          weight := (jn u.weight).orElse (fun _ => t.weight)
          himmali := (jn u.himmali).orElse (fun _ => t.himmali)
          remarks := (jn u.remarks).orElse (fun _ => t.remarks)
          status := (jn u.status).getD t.status
          settlement_status := (jn u.settlement_status).getD t.settlement_status
          pod_filename := t.pod_filename
          created_by := t.created_by }))

/-- Whether `update_dict` is non-empty at the `update_one` call: some field
of the request survived the `if v is not None` filter.  The balance blocks
only ever add keys to `update_dict` when a gadi or party key is already
present, so this test is exactly `update_dict != {}` at line 309. -/
def updHasField (u : TripUpdateIn) : Bool :=
  (jn u.loading_date).isSome || (jn u.unloading_date).isSome ||
  (jn u.vehicle_number).isSome || (jn u.driver_mobile).isSome ||
  (jn u.is_own_vehicle).isSome || (jn u.motor_owner_name).isSome ||
  (jn u.motor_owner_mobile).isSome || (jn u.gadi_bhada).isSome ||
  (jn u.gadi_advance).isSome || (jn u.party_name).isSome ||
  (jn u.party_mobile).isSome || (jn u.party_freight).isSome ||
  (jn u.party_advance).isSome || (jn u.tds).isSome ||
  (jn u.from_location).isSome || (jn u.to_location).isSome ||
  (jn u.weight).isSome || (jn u.himmali).isSome ||
  (jn u.remarks).isSome || (jn u.status).isSome ||
  (jn u.settlement_status).isSome

/-- `update_trip`: 404 when no document matches; 403 when the caller's role
is `"user"` and the stored status is `"Completed"`; then merge and write.
Two crash modes, both before any write is applied: the `TypeError` from a
balance recomputation over a `null` advance (inside `mergeTrip`), and the
driver's rejection of `update_one(..., {"$set": {}})` when every supplied
field was `null` or absent.  On success the re-fetched document is
returned. -/
def updateTrip (caller : UserT) (tid : Str) (u : TripUpdateIn) (s : Store) : UpdRes :=
  match findTrip tid s with
  | none => UpdRes.notFound
  | some t =>
    if caller.role == "user" && t.status == "Completed" then UpdRes.forbidden
    else
      match mergeTrip t u with
      | none => UpdRes.crash
      | some t' =>
        if updHasField u then UpdRes.ok t' (setFirst tid t' s)
        else UpdRes.crash

/-! ### `delete_trip` (lines 317-322) -/

/-- Outcome of `delete_trip` (403 from the `get_admin_user` dependency). -/
inductive DelRes : Type
  | forbidden : DelRes
  | notFound : DelRes
  | ok : Store → DelRes
deriving DecidableEq, Repr

/-- `delete_trip`: admin-only hard delete; 404 when nothing matched. -/
def deleteTrip (caller : UserT) (tid : Str) (s : Store) : DelRes :=
  if caller.role != "admin" then DelRes.forbidden
  else if (findTrip tid s).isSome then DelRes.ok (deleteOne tid s)
  else DelRes.notFound

/-! ### Read paths: `get_trips` (256-271) and `get_trip` (273-285) -/

/-- A trip record as returned by the listing: the Mongo projection may have
removed `party_freight`, hence the field is optional here. -/
structure TripView where
  trip_id : Str
  motor_owner_mobile : Option String
  party_freight : Option Money
  doc_rest : TripDoc
deriving DecidableEq, Repr

/-- The full-projection view of a stored document (`{"_id": 0}` only). -/
def toView (t : TripDoc) : TripView :=
  { trip_id := t.trip_id
    motor_owner_mobile := t.motor_owner_mobile
    party_freight := some t.party_freight
    doc_rest := t }

/-- Outcome of `get_trips` after the `response_model=List[Trip]`
serialization step: either a validated list or a response-validation
failure (HTTP 500). -/
inductive ListRes : Type
  | ok : List TripView → ListRes
  | error : ListRes
deriving DecidableEq, Repr

/-- `get_trips`: for role `"motor_owner"` the query is restricted to
documents whose `motor_owner_mobile` equals the caller's email and the
projection drops `party_freight`; everyone else gets every document in
full.  `.to_list(1000)` caps the result.  The handler's return value is
then validated against `List[Trip]`: `Trip.party_freight` is a required
field, so any record whose `party_freight` was projected away fails
validation — a motor-owner listing therefore succeeds only when empty,
while the full documents of the other roles always validate. -/
def getTrips (caller : UserT) (s : Store) : ListRes :=
  if caller.role == "motor_owner" then
    match ((s.filter (fun d => d.motor_owner_mobile == some caller.email)).map
      (fun d => { toView d with party_freight := none })).take 1000 with
    | [] => ListRes.ok []
    | _ :: _ => ListRes.error
  else ListRes.ok ((s.map toView).take 1000)

/-- Outcome of `get_trip`. -/
inductive GetRes : Type
  | notFound : GetRes
  | forbidden : GetRes
  | ok : TripDoc → GetRes
deriving DecidableEq, Repr

/-- `get_trip`: 404 when absent; 403 when a motor-owner caller's email
differs from the stored `motor_owner_mobile`; otherwise the full document
(no field is projected away on this path). -/
def getTrip (caller : UserT) (tid : Str) (s : Store) : GetRes :=
  match findTrip tid s with
  | none => GetRes.notFound
  | some t =>
    if caller.role == "motor_owner" && t.motor_owner_mobile != some caller.email then
      GetRes.forbidden
    else GetRes.ok t

/-! ### `get_party_analytics` (lines 353-374) -/

/-- One aggregation row (`PartyAnalytics`). -/
structure PartyRow where
  party_name : String
  party_mobile : String
  total_trips : Nat
  total_freight : Money
  total_paid : Money
  outstanding_balance : Money
deriving DecidableEq, Repr

/-- The `$group` key `{"name": "$party_name", "mobile": "$party_mobile"}`. -/
def partyKey (t : TripDoc) : String × String := (t.party_name, t.party_mobile)

/-- The aggregation row for one group key: `$sum: 1`, `$sum` of the two
amount columns (Mongo's `$sum` skips `null`, i.e. a missing advance
contributes 0), and `$subtract` for the outstanding balance. -/
def partyRowFor (s : Store) (k : String × String) : PartyRow :=
  let g := s.filter (fun t => partyKey t == k)
  let freight := (g.map (fun t => t.party_freight)).sum
  let paid := (g.map (fun t => t.party_advance.getD 0)).sum
  { party_name := k.1
    party_mobile := k.2
    total_trips := g.length
    total_freight := freight
    total_paid := paid
    outstanding_balance := freight - paid }

/-- `get_party_analytics`: one row per distinct `(party_name, party_mobile)`
pair occurring in the collection (Mongo leaves the group order
unspecified; first-occurrence order is used here). -/
def partyAnalytics (s : Store) : List PartyRow :=
  ((s.map partyKey).dedup).map (partyRowFor s)

/-! ### Operation traces

A trace of create/delete requests against the shared collection, used for
the lifecycle claims.  `runOps` threads the store and records the
identifier allocated by each successful creation, in request order;
a rejected delete (non-admin caller, or no match) leaves the store
unchanged and the trace continues. -/

/-- One lifecycle request.  For a creation, `y` is the wall-clock year
observed by `generate_trip_id` during that request. -/
inductive Op : Type
  | create : UserT → Nat → TripCreateIn → Op
  | drop : UserT → Str → Op
deriving Repr

/-- Run a request trace; `none` models an allocator crash. -/
def runOps : List Op → Store → Option (Store × List Str)
  | [], s => some (s, [])
  | Op.create c y inp :: rest, s =>
    match createTrip c y inp s with
    | none => none
    | some (s', d) => (runOps rest s').map (fun p => (p.1, d.trip_id :: p.2))
  | Op.drop c tid :: rest, s =>
    match deleteTrip c tid s with
    | DelRes.ok s' => runOps rest s'
    | _ => runOps rest s

/-- Stores reachable from an initial store by successful creations alone. -/
inductive ReachC : Store → Store → Prop
  | refl (s : Store) : ReachC s s
  | step {s₀ s s' : Store} {c : UserT} {y : Nat} {inp : TripCreateIn} {d : TripDoc} :
      ReachC s₀ s → createTrip c y inp s = some (s', d) → ReachC s₀ s'

/-- Stores reachable from an initial store by successful creations and
successful updates. -/
inductive ReachCU : Store → Store → Prop
  | refl (s : Store) : ReachCU s s
  | create {s₀ s s' : Store} {c : UserT} {y : Nat} {inp : TripCreateIn} {d : TripDoc} :
      ReachCU s₀ s → createTrip c y inp s = some (s', d) → ReachCU s₀ s'
  | update {s₀ s s' : Store} {c : UserT} {tid : Str} {u : TripUpdateIn} {d : TripDoc} :
      ReachCU s₀ s → updateTrip c tid u s = UpdRes.ok d s' → ReachCU s₀ s'

/-! ### Specification-side predicates used to state the claims -/

/-- `[c, c-1, ..., 1]`. -/
def downFrom : Nat → List Nat
  | 0 => []
  | c + 1 => (c + 1) :: downFrom c

/-- The shape of the `y`-identifiers in a store the allocator filled:
newest first, consecutive, counting down to 1. -/
def YearShape (y : Nat) (ids : List Str) (c : Nat) : Prop :=
  ids.filter (matchesYear y) = (downFrom c).map (mkTripId y)

/-- The global invariant: every year's identifiers have the counting shape. -/
def AllShaped (ids : List Str) : Prop := ∀ y : Nat, ∃ c : Nat, YearShape y ids c

/-! ### Concrete example data used by counterexamples and witnesses -/

/-- A placeholder document for total projections out of sum types; no
theorem depends on its field values. -/
def dummyDoc : TripDoc :=
  { trip_id := [], loading_date := "", unloading_date := none, vehicle_number := "",
    driver_mobile := "", is_own_vehicle := true, motor_owner_name := none,
    motor_owner_mobile := none, gadi_bhada := none, gadi_advance := none,
    gadi_balance := none, party_name := "", party_mobile := "", party_freight := 0,
    party_advance := none, party_balance := none, tds := none, from_location := "",
    to_location := "", weight := none, himmali := none, remarks := none,
    status := "Loaded", settlement_status := "Pending", pod_filename := none,
    created_by := "" }

/-- An admin caller. -/
def adminU : UserT := { email := "admin@x", role := "admin" }

/-- A caller with role `user`. -/
def plainU : UserT := { email := "user@x", role := "user" }

/-- A motor-owner caller whose identity is the mobile number `77`. -/
def ownerU : UserT := { email := "77", role := "motor_owner" }

/-- The spec's example creation input: hired vehicle, freight 75000 /
advance 25000, bhada 50000 / advance 20000. -/
def exInp : TripCreateIn :=
  { loading_date := "2026-01-15", unloading_date := none, vehicle_number := "GJ01AB1234",
    driver_mobile := "98", is_own_vehicle := false, motor_owner_name := some "MO",
    motor_owner_mobile := some "77", gadi_bhada := some 50000, gadi_advance := some 20000,
    party_name := "P", party_mobile := "91", party_freight := 75000,
    party_advance := some 25000, tds := none, from_location := "Mumbai",
    to_location := "Delhi", weight := none, himmali := none, remarks := some "first",
    status := "Loaded" }

/-- The trace refuting identifier non-reuse: two creations in 2026, an
admin delete of the second trip, then a third creation. -/
def C1ops : List Op :=
  [Op.create adminU 2026 exInp, Op.create adminU 2026 exInp,
    Op.drop adminU (mkTripId 2026 2), Op.create adminU 2026 exInp]

/-- Result of the spec's example creation on an empty collection. -/
def c3pair : Store × TripDoc := (createTrip adminU 2026 exInp []).getD ([], dummyDoc)

/-- Creation input with a known `gadi_bhada` but no `gadi_advance`. -/
def c4inp : TripCreateIn := { exInp with gadi_advance := none, remarks := none }

/-- Store holding only the `c4inp` trip. -/
def c4store : Store := ((createTrip adminU 2026 c4inp []).map Prod.fst).getD []

/-- Update touching only the agreed vehicle amount. -/
def c4upd : TripUpdateIn := { gadi_bhada := some (some 60000) }

/-- Store holding one hired-vehicle trip with `gadi_balance = 30000`. -/
def c5store1 : Store := ((createTrip adminU 2026 exInp []).map Prod.fst).getD []

/-- Update switching the trip to an own vehicle, touching nothing else. -/
def c5upd : TripUpdateIn := { is_own_vehicle := some (some true) }

/-- Result of applying `c5upd` to the only trip of `c5store1`. -/
def c5res : UpdRes := updateTrip adminU (mkTripId 2026 1) c5upd c5store1

/-- The document and store after the `c5upd` update. -/
def c5after : TripDoc × Store :=
  match c5res with
  | UpdRes.ok d s => (d, s)
  | _ => (dummyDoc, [])

/-- Update carrying an explicit `null` for `remarks` (present, empty). -/
def c6upd : TripUpdateIn := { remarks := some none }

/-- The stored remarks after an update, `none` on any non-success. -/
def remarksOf : UpdRes → Option (Option String)
  | UpdRes.ok d _ => some d.remarks
  | _ => none

/-- Creation input for a trip already in status `Completed`, with no
`party_advance` recorded. -/
def c7inp : TripCreateIn :=
  { exInp with status := "Completed", party_advance := none, remarks := none }

/-- Store holding only the completed `c7inp` trip. -/
def c7store : Store := ((createTrip adminU 2026 c7inp []).map Prod.fst).getD []

/-- Update touching only the agreed party amount. -/
def c7upd : TripUpdateIn := { party_freight := some (some 80000) }

/-- The `party_freight` carried by a single-trip fetch, `none` on errors. -/
def freightOfGet : GetRes → Option Money
  | GetRes.ok t => some t.party_freight
  | _ => none

/-- The completed trip document stored in `c7store`. -/
def c7doc : TripDoc := ((createTrip adminU 2026 c7inp []).map Prod.snd).getD dummyDoc

/-- Update carrying both a new `party_advance` and an explicit `null`
`remarks`. -/
def c6bigupd : TripUpdateIn := { party_advance := some (some 30000), remarks := some none }

/-- Result of applying `c6bigupd` to the only trip of `c5store1`. -/
def c6res : UpdRes := updateTrip adminU (mkTripId 2026 1) c6bigupd c5store1

/-- The document and store after the `c6bigupd` update. -/
def c6after : TripDoc × Store :=
  match c6res with
  | UpdRes.ok d s => (d, s)
  | _ => (dummyDoc, [])

/-- Second trip of the aggregation example: same party, freight 60000,
advance 15000, own vehicle. -/
def c9inp2 : TripCreateIn :=
  { exInp with
    is_own_vehicle := true
    motor_owner_name := none
    motor_owner_mobile := none
    gadi_bhada := none
    gadi_advance := none
    party_freight := 60000
    party_advance := some 15000
    remarks := none }

/-- Store with the two aggregation-example trips for party `(P, 91)`. -/
def c9store : Store :=
  ((createTrip adminU 2026 exInp []).map Prod.fst).getD [] |>
    (fun s => ((createTrip adminU 2026 c9inp2 s).map Prod.fst).getD s)

/-! ## Lemmas about decimal rendering and parsing -/

/-- Enough fuel makes `natDigitsAux` independent of the exact fuel value. -/
lemma natDigitsAux_congr : ∀ f₁ f₂ n : Nat, n < f₁ → n < f₂ →
    natDigitsAux f₁ n = natDigitsAux f₂ n := by
  intro f₁
  induction f₁ with
  | zero => intro f₂ n h; omega
  | succ f ih =>
    intro f₂ n h₁ h₂
    cases f₂ with
    | zero => omega
    | succ f' =>
      by_cases hn : n < 10
      · simp [natDigitsAux, hn]
      · have hd : n / 10 < n := Nat.div_lt_self (by omega) (by omega)
        simp only [natDigitsAux, if_neg hn]
        rw [ih f' (n / 10) (by omega) (by omega)]

lemma natDigitsAux_eq (fuel n : Nat) (h : n < fuel) : natDigitsAux fuel n = natDigits n :=
  natDigitsAux_congr fuel (n + 1) n h (Nat.lt_succ_self n)

lemma natDigits_small (n : Nat) (h : n < 10) : natDigits n = [digitChar n] := by
  simp [natDigits, natDigitsAux, h]

lemma natDigits_step (n : Nat) (h : 10 ≤ n) :
    natDigits n = natDigits (n / 10) ++ [digitChar (n % 10)] := by
  have hd : n / 10 < n := Nat.div_lt_self (by omega) (by omega)
  have h1 : natDigitsAux (n + 1) n = natDigitsAux n (n / 10) ++ [digitChar (n % 10)] := by
    simp [natDigitsAux, Nat.not_lt.mpr h]
  unfold natDigits
  rw [h1, natDigitsAux_congr n (n / 10 + 1) (n / 10) (by omega) (by omega)]

lemma digitChar_ne_underscore (d : Nat) : digitChar d ≠ '_' := by
  unfold digitChar
  split <;> decide

lemma charDigit?_digitChar (d : Nat) (h : d < 10) : charDigit? (digitChar d) = some d := by
  interval_cases d <;> decide

lemma natDigits_ne_nil (n : Nat) : natDigits n ≠ [] := by
  by_cases h : n < 10
  · rw [natDigits_small n h]; simp
  · rw [natDigits_step n (by omega)]; simp

lemma not_underscore_mem_natDigits (n : Nat) : '_' ∉ natDigits n := by
  induction n using Nat.strong_induction_on with
  | _ n ih =>
    by_cases h : n < 10
    · rw [natDigits_small n h]
      simp only [List.mem_singleton]
      exact fun hc => digitChar_ne_underscore n hc.symm
    · rw [natDigits_step n (by omega)]
      intro hc
      rcases List.mem_append.mp hc with hc | hc
      · exact ih (n / 10) (Nat.div_lt_self (by omega) (by omega)) hc
      · exact digitChar_ne_underscore (n % 10) (List.mem_singleton.mp hc).symm

lemma digitsVal_append (a b : List Char) : ∀ acc : Nat,
    digitsVal (a ++ b) acc =
      match digitsVal a acc with
      | some r => digitsVal b r
      | none => none := by
  induction a with
  | nil => intro acc; rfl
  | cons c cs ih =>
    intro acc
    simp only [List.cons_append, digitsVal]
    cases charDigit? c with
    | none => rfl
    | some d => exact ih (acc * 10 + d)

lemma digitsVal_natDigits (n : Nat) : ∀ acc : Nat,
    digitsVal (natDigits n) acc = some (acc * 10 ^ (natDigits n).length + n) := by
  induction n using Nat.strong_induction_on with
  | _ n ih =>
    intro acc
    by_cases h : n < 10
    · rw [natDigits_small n h]
      simp [digitsVal, charDigit?_digitChar n h]
    · have hd : n / 10 < n := Nat.div_lt_self (by omega) (by omega)
      rw [natDigits_step n (by omega), digitsVal_append]
      rw [ih (n / 10) hd acc]
      simp only [digitsVal, charDigit?_digitChar (n % 10) (by omega)]
      rw [List.length_append, List.length_singleton, pow_succ]
      congr 1
      have hmod : n / 10 * 10 + n % 10 = n := by omega
      rw [Nat.add_mul, Nat.mul_assoc, Nat.add_assoc, hmod]

lemma parseNat?_natDigits (n : Nat) : parseNat? (natDigits n) = some n := by
  rcases hE : natDigits n with _ | ⟨c, cs⟩
  · exact absurd hE (natDigits_ne_nil n)
  · have hv := digitsVal_natDigits n 0
    rw [hE] at hv
    simpa [parseNat?] using hv

lemma natDigits_inj {a b : Nat} (h : natDigits a = natDigits b) : a = b := by
  have ha := parseNat?_natDigits a
  have hb := parseNat?_natDigits b
  rw [h, hb] at ha
  exact (Option.some_inj.mp ha).symm

/-! ## Lemmas about splitting and identifier parsing -/

lemma splitOnChar_of_not_mem {sep : Char} : ∀ {l : Str}, sep ∉ l → splitOnChar sep l = [l] := by
  intro l
  induction l with
  | nil => intro _; rfl
  | cons c cs ih =>
    intro h
    have hc : ¬(c = sep) := fun hc => h (hc ▸ List.mem_cons_self c cs)
    have hcs : sep ∉ cs := fun hm => h (List.mem_cons_of_mem c hm)
    simp only [splitOnChar, if_neg hc, ih hcs]

lemma splitOnChar_append {sep : Char} : ∀ {A : Str} (B : Str), sep ∉ A →
    splitOnChar sep (A ++ sep :: B) = A :: splitOnChar sep B := by
  intro A
  induction A with
  | nil => intro B _; simp [splitOnChar]
  | cons a A' ih =>
    intro B h
    have ha : ¬(a = sep) := fun hc => h (hc ▸ List.mem_cons_self a A')
    have hA' : sep ∉ A' := fun hm => h (List.mem_cons_of_mem a hm)
    simp only [List.cons_append, splitOnChar, if_neg ha]
    rw [List.append_eq, ih B hA']

lemma splitOnChar_mkTripId (y n : Nat) :
    splitOnChar '_' (mkTripId y n) = [natDigits y, natDigits n] := by
  unfold mkTripId
  rw [splitOnChar_append (natDigits n) (not_underscore_mem_natDigits y),
    splitOnChar_of_not_mem (not_underscore_mem_natDigits n)]

lemma parseSeq_mkTripId (y n : Nat) : parseSeq (mkTripId y n) = some n := by
  unfold parseSeq
  rw [splitOnChar_mkTripId]
  simpa using parseNat?_natDigits n

lemma mkTripId_inj {y n y' n' : Nat} (h : mkTripId y n = mkTripId y' n') : y = y' ∧ n = n' := by
  have hs := congrArg (splitOnChar '_') h
  rw [splitOnChar_mkTripId, splitOnChar_mkTripId] at hs
  have h₁ : natDigits y = natDigits y' := by injection hs
  have h₂ : natDigits n = natDigits n' := by
    have := hs
    injection this with _ t
    injection t
  exact ⟨natDigits_inj h₁, natDigits_inj h₂⟩

/-! ## Lemmas about the anchored year test -/

lemma startsWith_self_append : ∀ p r : Str, startsWith p (p ++ r) = true := by
  intro p
  induction p with
  | nil => intro r; rfl
  | cons c cs ih => intro r; simp [startsWith, ih r]

lemma matchesYear_mkTripId (y n : Nat) : matchesYear y (mkTripId y n) = true := by
  unfold matchesYear mkTripId
  rw [show natDigits y ++ '_' :: natDigits n = (natDigits y ++ ['_']) ++ natDigits n by simp]
  exact startsWith_self_append _ _

lemma startsWith_sep_unique {s : Char} : ∀ (A B C : Str), s ∉ A → s ∉ B →
    startsWith (A ++ [s]) (B ++ s :: C) = true → A = B := by
  intro A
  induction A with
  | nil =>
    intro B C _ hB hst
    cases B with
    | nil => rfl
    | cons b B' =>
      exfalso
      simp only [List.nil_append, List.cons_append, startsWith, Bool.and_eq_true, beq_iff_eq] at hst
      exact hB (hst.1 ▸ List.mem_cons_self b B')
  | cons a A' ih =>
    intro B C hA hB hst
    cases B with
    | nil =>
      exfalso
      simp only [List.cons_append, List.nil_append, startsWith, Bool.and_eq_true,
        beq_iff_eq] at hst
      exact hA (hst.1 ▸ List.mem_cons_self a A')
    | cons b B' =>
      simp only [List.cons_append, startsWith, Bool.and_eq_true, beq_iff_eq] at hst
      have hA' : s ∉ A' := fun hm => hA (List.mem_cons_of_mem a hm)
      have hB' : s ∉ B' := fun hm => hB (List.mem_cons_of_mem b hm)
      have := ih B' C hA' hB' hst.2
      rw [hst.1, this]

lemma matchesYear_mkTripId_eq {y y' n : Nat} (h : matchesYear y (mkTripId y' n) = true) :
    y = y' := by
  unfold matchesYear mkTripId at h
  exact natDigits_inj (startsWith_sep_unique (natDigits y) (natDigits y') (natDigits n)
    (not_underscore_mem_natDigits y) (not_underscore_mem_natDigits y') h)

lemma matchesYear_mkTripId_ne {y y' n : Nat} (h : y ≠ y') :
    matchesYear y (mkTripId y' n) = false := by
  rcases hb : matchesYear y (mkTripId y' n) with _ | _
  · rfl
  · exact absurd (matchesYear_mkTripId_eq hb) h

/-! ## The allocator invariant

For a year `y`, the `y`-identifiers present in a store that the allocator
itself populated are exactly `y_c, y_(c-1), ..., y_1` in newest-first
order, for some count `c`. -/

lemma mem_downFrom {k : Nat} : ∀ {c : Nat}, k ∈ downFrom c ↔ 1 ≤ k ∧ k ≤ c := by
  intro c
  induction c with
  | zero => simp [downFrom]; omega
  | succ c ih => simp [downFrom, ih]; omega

/-- `find_one` with a sort is the head of the sorted filtered list. -/
lemma find?_eq_head?_filter {α : Type} (p : α → Bool) :
    ∀ l : List α, l.find? p = (l.filter p).head? := by
  intro l
  induction l with
  | nil => rfl
  | cons a t ih =>
    cases h : p a with
    | true => rw [List.find?_cons_of_pos _ h, List.filter_cons_of_pos h, List.head?_cons]
    | false => rw [List.find?_cons_of_neg _ (by simp [h]), List.filter_cons_of_neg (by simp [h]), ih]

/-- Under the shape invariant, `generate_trip_id` succeeds and allocates
the next sequence number. -/
lemma genId_of_shape {y c : Nat} {ids : List Str} (h : YearShape y ids c) :
    genId y ids = some (mkTripId y (c + 1)) := by
  unfold genId
  rw [find?_eq_head?_filter, h]
  cases c with
  | zero => rfl
  | succ c' =>
    simp only [downFrom, List.map_cons, List.head?_cons]
    rw [parseSeq_mkTripId]
    rfl

/-- Under the shape invariant, the freshly allocated identifier is not yet
present in the store. -/
lemma fresh_of_shape {y c : Nat} {ids : List Str} (h : YearShape y ids c) :
    mkTripId y (c + 1) ∉ ids := by
  intro hmem
  have hf : mkTripId y (c + 1) ∈ ids.filter (matchesYear y) :=
    List.mem_filter.mpr ⟨hmem, matchesYear_mkTripId y (c + 1)⟩
  rw [h] at hf
  rcases List.mem_map.mp hf with ⟨k, hk, hek⟩
  have hk' := mem_downFrom.mp hk
  have := (mkTripId_inj hek).2
  omega

/-- Consing the freshly allocated `y`-identifier advances the shape. -/
lemma shape_cons_same {y c : Nat} {ids : List Str} (h : YearShape y ids c) :
    YearShape y (mkTripId y (c + 1) :: ids) (c + 1) := by
  unfold YearShape at h ⊢
  rw [List.filter_cons_of_pos (matchesYear_mkTripId y (c + 1)), h]
  rfl

/-- Consing a `y`-identifier does not disturb another year's shape. -/
lemma shape_cons_other {y' y c n : Nat} {ids : List Str} (hne : y' ≠ y)
    (h : YearShape y' ids c) : YearShape y' (mkTripId y n :: ids) c := by
  unfold YearShape at h ⊢
  rw [List.filter_cons_of_neg (by simp [matchesYear_mkTripId_ne hne]), h]

lemma allShaped_nil : AllShaped [] := fun _ => ⟨0, rfl⟩

lemma allShaped_cons {y c : Nat} {ids : List Str} (hAll : AllShaped ids)
    (hy : YearShape y ids c) : AllShaped (mkTripId y (c + 1) :: ids) := by
  intro y'
  by_cases hne : y' = y
  · subst hne; exact ⟨c + 1, shape_cons_same hy⟩
  · rcases hAll y' with ⟨c', hc'⟩
    exact ⟨c', shape_cons_other hne hc'⟩

/-! ## Runs of the lifecycle operations -/

lemma createTrip_of_genId {c : UserT} {y : Nat} {inp : TripCreateIn} {s : Store} {tid : Str}
    (h : genId y (idsOf s) = some tid) :
    ∃ d : TripDoc, createTrip c y inp s = some (d :: s, d) ∧ d.trip_id = tid := by
  unfold createTrip generateTripId
  rw [h]
  exact ⟨_, rfl, rfl⟩

/-- Creation-only traces from a well-shaped, duplicate-free store always
succeed, append their allocations in front, and preserve both invariants. -/
lemma runOps_creates (ops : List (UserT × Nat × TripCreateIn)) :
    ∀ s : Store, AllShaped (idsOf s) → (idsOf s).Nodup →
    ∃ (s' : Store) (A : List Str),
      runOps (ops.map (fun t => Op.create t.1 t.2.1 t.2.2)) s = some (s', A) ∧
      idsOf s' = A.reverse ++ idsOf s ∧ AllShaped (idsOf s') ∧ (idsOf s').Nodup := by
  induction ops with
  | nil => intro s h1 h2; exact ⟨s, [], rfl, by simp, h1, h2⟩
  | cons op rest ih =>
    intro s hAll hNd
    obtain ⟨c, hy⟩ := hAll op.2.1
    obtain ⟨d, hcreate, hdid⟩ :=
      @createTrip_of_genId op.1 op.2.1 op.2.2 s _ (genId_of_shape hy)
    have hid : idsOf (d :: s) = mkTripId op.2.1 (c + 1) :: idsOf s := by
      simp [idsOf, hdid]
    have hAll' : AllShaped (idsOf (d :: s)) := by
      rw [hid]; exact allShaped_cons hAll hy
    have hNd' : (idsOf (d :: s)).Nodup := by
      rw [hid]; exact List.nodup_cons.mpr ⟨fresh_of_shape hy, hNd⟩
    obtain ⟨s', A, hrun, hids, hAll'', hNd''⟩ := ih (d :: s) hAll' hNd'
    refine ⟨s', d.trip_id :: A, ?_, ?_, hAll'', hNd''⟩
    · simp only [List.map_cons, runOps, hcreate, hrun]
      rfl
    · rw [hids, hid, hdid]
      simp

/-- A creation-only trace within one year, starting from a store whose
`y`-identifiers have the counting shape with count `c`, allocates exactly
`y_(c+1), y_(c+2), ...` in request order. -/
lemma runOps_sameYear (y : Nat) (inps : List (UserT × TripCreateIn)) :
    ∀ (s : Store) (c : Nat), YearShape y (idsOf s) c →
    ∃ s' : Store,
      runOps (inps.map (fun t => Op.create t.1 y t.2)) s =
        some (s', (List.range inps.length).map (fun i => mkTripId y (c + i + 1))) := by
  induction inps with
  | nil => intro s c _; exact ⟨s, by simp [runOps]⟩
  | cons ip rest ih =>
    intro s c hy
    obtain ⟨d, hcreate, hdid⟩ :=
      @createTrip_of_genId ip.1 y ip.2 s _ (genId_of_shape hy)
    have hid : idsOf (d :: s) = mkTripId y (c + 1) :: idsOf s := by
      simp [idsOf, hdid]
    have hy' : YearShape y (idsOf (d :: s)) (c + 1) := by
      rw [hid]; exact shape_cons_same hy
    obtain ⟨s', hrun⟩ := ih (d :: s) (c + 1) hy'
    refine ⟨s', ?_⟩
    simp only [List.map_cons, runOps, hcreate, hrun]
    rw [hdid, List.length_cons, List.range_succ_eq_map, List.map_cons, List.map_map]
    have h0 : c + 0 + 1 = c + 1 := by omega
    rw [h0]
    have htail :
        List.map ((fun i => mkTripId y (c + i + 1)) ∘ Nat.succ) (List.range rest.length) =
          List.map (fun i => mkTripId y (c + 1 + i + 1)) (List.range rest.length) := by
      apply List.map_congr_left
      intro i _
      simp only [Function.comp_apply]
      congr 1
      omega
    rw [htail]
    rfl

/-! ## Elimination lemmas for the lifecycle operations -/

lemma createTrip_ok_elim {c : UserT} {y : Nat} {inp : TripCreateIn} {s s' : Store}
    {d : TripDoc} (h : createTrip c y inp s = some (s', d)) :
    s' = d :: s ∧ ∃ tid : Str, d = mkCreatedDoc c inp tid := by
  unfold createTrip at h
  cases hg : generateTripId y s with
  | none => rw [hg] at h; exact Option.noConfusion h
  | some tid =>
    rw [hg] at h
    have hp := Option.some.inj h
    have h1 : mkCreatedDoc c inp tid :: s = s' := congrArg Prod.fst hp
    have h2 : mkCreatedDoc c inp tid = d := congrArg Prod.snd hp
    exact ⟨h1 ▸ h2 ▸ rfl, tid, h2.symm⟩

/-- The non-balance fields of a successfully merged document: a field
changes exactly when the request carries it with a non-`null` value. -/
lemma mergeTrip_fields {t : TripDoc} {u : TripUpdateIn} {d : TripDoc}
    (h : mergeTrip t u = some d) :
    d.trip_id = t.trip_id ∧
    d.loading_date = (jn u.loading_date).getD t.loading_date ∧
    d.unloading_date = ((jn u.unloading_date).orElse (fun _ => t.unloading_date)) ∧
    d.vehicle_number = (jn u.vehicle_number).getD t.vehicle_number ∧
    d.driver_mobile = (jn u.driver_mobile).getD t.driver_mobile ∧
    d.is_own_vehicle = (jn u.is_own_vehicle).getD t.is_own_vehicle ∧
    d.motor_owner_name = ((jn u.motor_owner_name).orElse (fun _ => t.motor_owner_name)) ∧
    d.motor_owner_mobile = ((jn u.motor_owner_mobile).orElse (fun _ => t.motor_owner_mobile)) ∧
    d.gadi_bhada = ((jn u.gadi_bhada).orElse (fun _ => t.gadi_bhada)) ∧
    d.gadi_advance = ((jn u.gadi_advance).orElse (fun _ => t.gadi_advance)) ∧
    d.party_name = (jn u.party_name).getD t.party_name ∧
    d.party_mobile = (jn u.party_mobile).getD t.party_mobile ∧
    d.party_freight = (jn u.party_freight).getD t.party_freight ∧
    d.party_advance = ((jn u.party_advance).orElse (fun _ => t.party_advance)) ∧
    d.tds = ((jn u.tds).orElse (fun _ => t.tds)) ∧
    d.from_location = (jn u.from_location).getD t.from_location ∧
    d.to_location = (jn u.to_location).getD t.to_location ∧
    d.weight = ((jn u.weight).orElse (fun _ => t.weight)) ∧
    d.himmali = ((jn u.himmali).orElse (fun _ => t.himmali)) ∧
    d.remarks = ((jn u.remarks).orElse (fun _ => t.remarks)) ∧
    d.status = (jn u.status).getD t.status ∧
    d.settlement_status = (jn u.settlement_status).getD t.settlement_status ∧
    d.pod_filename = t.pod_filename ∧
    d.created_by = t.created_by := by
  unfold mergeTrip at h
  obtain ⟨gBal, hg, h⟩ := Option.bind_eq_some.mp h
  obtain ⟨pBal, hp, h⟩ := Option.bind_eq_some.mp h
  have hd := Option.some.inj h
  subst hd
  exact ⟨rfl, rfl, rfl, rfl, rfl, rfl, rfl, rfl, rfl, rfl, rfl, rfl, rfl, rfl, rfl,
    rfl, rfl, rfl, rfl, rfl, rfl, rfl, rfl, rfl⟩

lemma updateTrip_ok_elim {c : UserT} {tid : Str} {u : TripUpdateIn} {s s' : Store}
    {d : TripDoc} (h : updateTrip c tid u s = UpdRes.ok d s') :
    ∃ t : TripDoc, findTrip tid s = some t ∧
      (c.role == "user" && t.status == "Completed") = false ∧
      mergeTrip t u = some d ∧ s' = setFirst tid d s := by
  unfold updateTrip at h
  split at h
  next hf => exact absurd h (by simp)
  next t hf =>
    split at h
    next hcond => exact absurd h (by simp)
    next hcond =>
      split at h
      next hm => exact absurd h (by simp)
      next t' hm =>
        split at h
        next hu =>
          cases h
          exact ⟨t, hf, by simpa using hcond, hm, rfl⟩
        next hu => exact absurd h (by simp)

lemma findTrip_id {tid : Str} {s : Store} {t : TripDoc} (h : findTrip tid s = some t) :
    t.trip_id = tid := by
  have := List.find?_some h
  simpa using this

lemma findTrip_setFirst {tid : Str} {d : TripDoc} (hd : d.trip_id = tid) :
    ∀ {s : Store}, (findTrip tid s).isSome → findTrip tid (setFirst tid d s) = some d := by
  intro s
  induction s with
  | nil => intro h; simp [findTrip] at h
  | cons a as ih =>
    intro h
    by_cases ha : (a.trip_id == tid) = true
    · simp [setFirst, ha, findTrip, List.find?, hd]
    · have hb : (a.trip_id == tid) = false := by simpa using ha
      have h' : (findTrip tid as).isSome := by
        simpa [findTrip, List.find?_cons, hb] using h
      rw [show setFirst tid d (a :: as) = a :: setFirst tid d as from by simp [setFirst, hb]]
      rw [show findTrip tid (a :: setFirst tid d as) = findTrip tid (setFirst tid d as) from by
        simp [findTrip, List.find?_cons, hb]]
      exact ih h'

/-- `update_trip` reads only the caller's role, never their identity. -/
lemma updateTrip_role_only (e e' r : String) (tid : Str) (u : TripUpdateIn) (s : Store) :
    updateTrip { email := e, role := r } tid u s =
      updateTrip { email := e', role := r } tid u s := rfl

/-- The gadi invariant holds for every freshly created document. -/
lemma mkCreatedDoc_gadi (c : UserT) (inp : TripCreateIn) (tid : Str) :
    ((mkCreatedDoc c inp tid).gadi_balance ≠ none ↔
      (mkCreatedDoc c inp tid).is_own_vehicle = false ∧
        (mkCreatedDoc c inp tid).gadi_bhada ≠ none) ∧
    (∀ b : Money, (mkCreatedDoc c inp tid).gadi_bhada = some b →
      (mkCreatedDoc c inp tid).is_own_vehicle = false →
      (mkCreatedDoc c inp tid).gadi_balance =
        some (b - (mkCreatedDoc c inp tid).gadi_advance.getD 0)) := by
  cases ho : inp.is_own_vehicle <;> cases hb : inp.gadi_bhada <;>
    simp [mkCreatedDoc, ho, hb]

/-- A per-document property that holds for every created document is
carried through creation-only reachability. -/
lemma reachC_preserves (P : TripDoc → Prop)
    (hP : ∀ (c : UserT) (inp : TripCreateIn) (tid : Str), P (mkCreatedDoc c inp tid)) :
    ∀ {s₀ s : Store}, ReachC s₀ s → (∀ t ∈ s₀, P t) → ∀ t ∈ s, P t := by
  intro s₀ s h
  induction h with
  | refl => exact fun h0 => h0
  | step hR hC ih =>
    intro h0 t ht
    obtain ⟨rfl, tid, rfl⟩ := createTrip_ok_elim hC
    rcases List.mem_cons.mp ht with rfl | ht'
    · exact hP _ _ _
    · exact ih h0 t ht'

/-! # The claims -/

/-- Claim C1, counterexample.  The claim says a `trip_id` is never reused
even after the trip holding it has been deleted.  On the trace
"create, create, delete the newest trip, create" within year 2026, the
third creation re-allocates `2026_2`, the identifier of the deleted trip:
the allocated identifiers are not pairwise distinct. -/
theorem C1_counterexample :
    (runOps C1ops []).map Prod.snd =
      some [mkTripId 2026 1, mkTripId 2026 2, mkTripId 2026 2] ∧
    ¬ ([mkTripId 2026 1, mkTripId 2026 2, mkTripId 2026 2] : List Str).Nodup := by
  constructor
  · decide
  · decide

/-- Claim C1, amended: for every sequence of create operations with no
deletions, starting from an empty collection, the allocated trip
identifiers are pairwise distinct — no later creation allocates an
identifier equal to one previously allocated. -/
theorem C1_amended_no_reuse (ops : List (UserT × Nat × TripCreateIn)) :
    ∃ p : Store × List Str,
      runOps (ops.map (fun t => Op.create t.1 t.2.1 t.2.2)) [] = some p ∧ p.2.Nodup := by
  obtain ⟨s', A, hrun, hids, -, hNd⟩ := runOps_creates ops [] allShaped_nil List.nodup_nil
  refine ⟨(s', A), hrun, ?_⟩
  rw [hids] at hNd
  simp only [idsOf, List.map_nil, List.append_nil] at hNd
  exact List.nodup_reverse.mp hNd

/-- Witness for C1 (amended) at a concrete three-creation trace. -/
theorem C1_amended_no_reuse_witness :
    ∃ p : Store × List Str,
      runOps ([(adminU, 2026, exInp), (adminU, 2026, exInp), (adminU, 2027, exInp)].map
        (fun t => Op.create t.1 t.2.1 t.2.2)) [] = some p ∧ p.2.Nodup :=
  C1_amended_no_reuse [(adminU, 2026, exInp), (adminU, 2026, exInp), (adminU, 2027, exInp)]

/-- Claim C2: starting from a collection holding no identifier prefixed
with year `y`, a sequence of creations in year `y` allocates identifiers
whose numeric suffixes are `1, 2, 3, ...` in creation order — strictly
increasing, with the first trip of the year receiving suffix 1. -/
theorem C2_year_sequence (y : Nat) (inps : List (UserT × TripCreateIn)) (s : Store)
    (hempty : (idsOf s).filter (matchesYear y) = []) :
    ∃ (s' : Store) (A : List Str),
      runOps (inps.map (fun t => Op.create t.1 y t.2)) s = some (s', A) ∧
      A.length = inps.length ∧
      (∀ i : Nat, i < inps.length →
        A[i]? = some (mkTripId y (i + 1)) ∧
          parseSeq (mkTripId y (i + 1)) = some (i + 1)) := by
  have hy : YearShape y (idsOf s) 0 := by
    unfold YearShape
    rw [hempty]
    rfl
  obtain ⟨s', hrun⟩ := runOps_sameYear y inps s 0 hy
  refine ⟨s', _, hrun, by simp, ?_⟩
  intro i hi
  constructor
  · rw [List.getElem?_map, List.getElem?_range hi, Option.map_some']
    congr 2
    omega
  · exact parseSeq_mkTripId y (i + 1)

/-- Witness for C2: two creations in 2026 on the empty collection receive
suffixes 1 and 2. -/
theorem C2_year_sequence_witness :
    ∃ (s' : Store) (A : List Str),
      runOps ([((adminU : UserT), exInp), ((plainU : UserT), exInp)].map
        (fun t => Op.create t.1 2026 t.2)) [] = some (s', A) ∧
      A.length = 2 ∧
      (∀ i : Nat, i < 2 →
        A[i]? = some (mkTripId 2026 (i + 1)) ∧
          parseSeq (mkTripId 2026 (i + 1)) = some (i + 1)) :=
  C2_year_sequence 2026 [(adminU, exInp), (plainU, exInp)] [] (by decide)

/-- Claim C3: every stored trip produced by `create_trip` has
`party_balance = party_freight - (party_advance or 0)`, and `gadi_balance`
is `None` when the vehicle is owned or `gadi_bhada` is absent, and
`gadi_bhada - (gadi_advance or 0)` otherwise. -/
theorem C3_create_balances (c : UserT) (y : Nat) (inp : TripCreateIn) (s s' : Store)
    (d : TripDoc) (h : createTrip c y inp s = some (s', d)) :
    d.party_balance = some (inp.party_freight - inp.party_advance.getD 0) ∧
    ((inp.is_own_vehicle = true ∨ inp.gadi_bhada = none) → d.gadi_balance = none) ∧
    (∀ b : Money, inp.is_own_vehicle = false → inp.gadi_bhada = some b →
      d.gadi_balance = some (b - inp.gadi_advance.getD 0)) := by
  obtain ⟨-, tid, rfl⟩ := createTrip_ok_elim h
  refine ⟨rfl, ?_, ?_⟩
  · rintro (ho | hb)
    · simp [mkCreatedDoc, ho]
    · cases ho2 : inp.is_own_vehicle <;> simp [mkCreatedDoc, hb, ho2]
  · intro b ho hb
    simp [mkCreatedDoc, ho, hb]

/-- Witness for C3: the spec's example input (freight 75000 / advance
25000, bhada 50000 / advance 20000, hired vehicle) on the empty collection
yields `party_balance 50000`, `gadi_balance 30000` and identifier
`2026_1`. -/
theorem C3_create_balances_witness :
    c3pair.2.party_balance = some 50000 ∧ c3pair.2.gadi_balance = some 30000 ∧
      c3pair.2.trip_id = mkTripId 2026 1 := by
  have h := C3_create_balances adminU 2026 exInp [] c3pair.1 c3pair.2 (by decide)
  exact ⟨h.1.trans (by decide), (h.2.2 50000 (by decide) (by decide)).trans (by decide),
    by decide⟩

/-- Claim C4, code bug.  The stored document always carries its
`gadi_advance` key (possibly `null`), so `existing_trip.get("gadi_advance",
0)` returns `None` rather than `0` for a trip created without an advance:
updating only `gadi_bhada` on such a trip evaluates `60000 - None` and the
request dies with a `TypeError` instead of recomputing the balance with the
advance treated as 0. -/
theorem C4_update_crash :
    updateTrip adminU (mkTripId 2026 1) c4upd c4store = UpdRes.crash ∧
    (findTrip (mkTripId 2026 1) c4store).map
        (fun t => (t.gadi_bhada, t.gadi_advance, t.is_own_vehicle)) =
      some (some 50000, none, false) := by
  constructor
  · decide
  · decide

/-- Claim C5, counterexample.  The claim says every reachable trip with
`is_own_vehicle = true` has `gadi_balance = None`.  Creating a hired trip
with `gadi_balance 30000` and then updating only `is_own_vehicle := true`
(a successful update) leaves the stale `gadi_balance 30000` on an
own-vehicle trip. -/
theorem C5_counterexample :
    ∃ (s : Store) (t : TripDoc), ReachCU [] s ∧ t ∈ s ∧
      t.is_own_vehicle = true ∧ t.gadi_balance ≠ none := by
  have h1 : createTrip adminU 2026 exInp [] = some (c5store1, c3pair.2) := by decide
  have h2 : updateTrip adminU (mkTripId 2026 1) c5upd c5store1 =
      UpdRes.ok c5after.1 c5after.2 := by decide
  exact ⟨c5after.2, c5after.1, ReachCU.update (ReachCU.create (ReachCU.refl []) h1) h2,
    by decide, by decide, by decide⟩

/-- Claim C5, amended: on every store reachable from empty by creations
alone, `gadi_balance` is non-`None` iff the trip is hired and `gadi_bhada`
is present, in which case it equals `gadi_bhada - (gadi_advance or 0)`;
the update path does not preserve this invariant. -/
theorem C5_create_invariant (s : Store) (h : ReachC [] s) :
    ∀ t ∈ s,
      (t.gadi_balance ≠ none ↔ t.is_own_vehicle = false ∧ t.gadi_bhada ≠ none) ∧
      (∀ b : Money, t.gadi_bhada = some b → t.is_own_vehicle = false →
        t.gadi_balance = some (b - t.gadi_advance.getD 0)) :=
  reachC_preserves _ (fun c inp tid => mkCreatedDoc_gadi c inp tid) h
    (fun t ht => absurd ht (List.not_mem_nil t))

/-- Witness for C5 (amended) on the one-trip store created from the
example input. -/
theorem C5_create_invariant_witness : c3pair.2.gadi_balance = some 30000 := by
  have hr : ReachC [] c5store1 :=
    ReachC.step (ReachC.refl [])
      (show createTrip adminU 2026 exInp [] = some (c5store1, c3pair.2) by decide)
  have h := C5_create_invariant c5store1 hr c3pair.2 (by decide)
  exact (h.2 50000 (by decide) (by decide)).trans (by decide)

/-- Claim C6, counterexample.  The claim says a field present in the
request with a `null` value is an explicit unset, mirrored faithfully in
the stored record.  Updating the example trip (stored `remarks = "first"`)
with a request that carries `remarks: null` together with a non-`null`
`party_advance` succeeds, yet the stored `remarks` is still `"first"`:
the `null` was dropped by the `if v is not None` filter and treated as
"leave unchanged".  (A request whose present fields are all `null` never
even reaches the store: `update_dict` is empty and the write is rejected —
see the amended theorem.) -/
theorem C6_counterexample :
    remarksOf (updateTrip adminU (mkTripId 2026 1) c6bigupd c5store1) =
      some (some "first") := by
  decide

/-- Claim C6, amended: a successful update changes exactly the fields that
are present in the request with a non-`null` value (plus the two
re-derived balances); a field that is absent, or present with a `null`
value, is left unchanged — an explicit `null` is never persisted.  An
update in which no present field is non-`null` (in particular a request
carrying only `null`s, or nothing) cannot succeed at all: `update_dict` is
empty and `update_one({"$set": {}})` is rejected, so the request fails
with a server error, leaving the trip unchanged. -/
theorem C6_merge_semantics (c : UserT) (tid : Str) (u : TripUpdateIn) (s : Store)
    (t : TripDoc) (hf : findTrip tid s = some t) :
    (∀ (d : TripDoc) (s' : Store), updateTrip c tid u s = UpdRes.ok d s' →
      (d.trip_id = t.trip_id ∧
      d.loading_date = (jn u.loading_date).getD t.loading_date ∧
      d.unloading_date = ((jn u.unloading_date).orElse (fun _ => t.unloading_date)) ∧
      d.vehicle_number = (jn u.vehicle_number).getD t.vehicle_number ∧
      d.driver_mobile = (jn u.driver_mobile).getD t.driver_mobile ∧
      d.is_own_vehicle = (jn u.is_own_vehicle).getD t.is_own_vehicle ∧
      d.motor_owner_name = ((jn u.motor_owner_name).orElse (fun _ => t.motor_owner_name)) ∧
      d.motor_owner_mobile =
        ((jn u.motor_owner_mobile).orElse (fun _ => t.motor_owner_mobile)) ∧
      d.gadi_bhada = ((jn u.gadi_bhada).orElse (fun _ => t.gadi_bhada)) ∧
      d.gadi_advance = ((jn u.gadi_advance).orElse (fun _ => t.gadi_advance)) ∧
      d.party_name = (jn u.party_name).getD t.party_name ∧
      d.party_mobile = (jn u.party_mobile).getD t.party_mobile ∧
      d.party_freight = (jn u.party_freight).getD t.party_freight ∧
      d.party_advance = ((jn u.party_advance).orElse (fun _ => t.party_advance)) ∧
      d.tds = ((jn u.tds).orElse (fun _ => t.tds)) ∧
      d.from_location = (jn u.from_location).getD t.from_location ∧
      d.to_location = (jn u.to_location).getD t.to_location ∧
      d.weight = ((jn u.weight).orElse (fun _ => t.weight)) ∧
      d.himmali = ((jn u.himmali).orElse (fun _ => t.himmali)) ∧
      d.remarks = ((jn u.remarks).orElse (fun _ => t.remarks)) ∧
      d.status = (jn u.status).getD t.status ∧
      d.settlement_status = (jn u.settlement_status).getD t.settlement_status ∧
      d.pod_filename = t.pod_filename ∧
      d.created_by = t.created_by) ∧
      s' = setFirst tid d s) ∧
    (updHasField u = false → (c.role == "user" && t.status == "Completed") = false →
      updateTrip c tid u s = UpdRes.crash) := by
  constructor
  · intro d s' h
    obtain ⟨t₀, hf₀, -, hm, hs⟩ := updateTrip_ok_elim h
    rw [hf] at hf₀
    cases Option.some.inj hf₀
    exact ⟨mergeTrip_fields hm, hs⟩
  · intro hu hgate
    simp only [updateTrip, hf, hgate, Bool.false_eq_true, if_false]
    cases hm : mergeTrip t u with
    | none => rfl
    | some t' => simp [hu]

/-- Witness for C6 (amended): an update carrying a new `party_advance`
and an explicit `null` for `remarks` keeps the stored remarks and applies
the advance; the update carrying only the `null` crashes with a server
error. -/
theorem C6_merge_semantics_witness :
    c6after.1.remarks = some "first" ∧ c6after.1.party_advance = some 30000 ∧
      updateTrip adminU (mkTripId 2026 1) c6upd c5store1 = UpdRes.crash := by
  have h := (C6_merge_semantics adminU (mkTripId 2026 1) c6bigupd c5store1
    c3pair.2 (by decide)).1 c6after.1 c6after.2 (by decide)
  obtain ⟨⟨h1, h2, h3, h4, h5, h6, h7, h8, h9, h10, h11, h12, h13, h14, h15, h16, h17,
    h18, h19, h20, h21, h22, h23, h24⟩, -⟩ := h
  refine ⟨h20.trans (by decide), h14.trans (by decide), ?_⟩
  exact (C6_merge_semantics adminU (mkTripId 2026 1) c6upd c5store1 c3pair.2
    (by decide)).2 (by decide) (by decide)

/-- Claim C7, code bug.  Role gating itself matches the claim — a
`user`-role update of a `Completed` trip is rejected with `Forbidden`
before any write, and an `admin` is not blocked — but "the same update by
`admin` succeeds" fails: on a completed trip whose stored `party_advance`
is `null`, an admin update touching only `party_freight` evaluates
`80000 - None` and dies with a `TypeError` (HTTP 500) instead of
succeeding. -/
theorem C7_completed_gate :
    updateTrip plainU (mkTripId 2026 1) c7upd c7store = UpdRes.forbidden ∧
    updateTrip adminU (mkTripId 2026 1) c7upd c7store = UpdRes.crash ∧
    (findTrip (mkTripId 2026 1) c7store).map (fun t => (t.status, t.party_advance)) =
      some ("Completed", none) := by
  exact ⟨by decide, by decide, by decide⟩

/-- Claim C8, counterexample.  The claim says single-record fetch strips
`party_freight` from any record it returns to a motor-owner.  The owner of
the example trip (identity `77`) fetches it and receives the full
document, `party_freight = 75000` included: `get_trip` projects nothing. -/
theorem C8_counterexample :
    freightOfGet (getTrip ownerU (mkTripId 2026 1) c5store1) = some 75000 := by
  decide

/-- Claim C8, amended: a motor-owner listing never returns a trip record
at all — the ownership filter and `party_freight` projection are applied
in the query, but the projected records then fail the required-field
validation of the `Trip` response model, so the listing succeeds only as
the empty list (when the caller owns no stored trip) and fails with a
server error otherwise.  Single-record fetch denies access (`Forbidden`,
or `NotFound` when absent) when the stored mobile differs from the
caller's identity, but returns the full un-stripped document —
`party_freight` included — when it matches. -/
theorem C8_owner_visibility (caller : UserT) (s : Store)
    (hrole : caller.role = "motor_owner") :
    (∀ l : List TripView, getTrips caller s = ListRes.ok l → l = []) ∧
    (s.filter (fun d => d.motor_owner_mobile == some caller.email) ≠ [] →
      getTrips caller s = ListRes.error) ∧
    (∀ (tid : Str) (t : TripDoc), findTrip tid s = some t →
      (t.motor_owner_mobile ≠ some caller.email →
        getTrip caller tid s = GetRes.forbidden) ∧
      (t.motor_owner_mobile = some caller.email → getTrip caller tid s = GetRes.ok t)) ∧
    (∀ tid : Str, findTrip tid s = none → getTrip caller tid s = GetRes.notFound) := by
  have hb : (caller.role == "motor_owner") = true := by simp [hrole]
  refine ⟨?_, ?_, ?_, ?_⟩
  · intro l hl
    simp only [getTrips, hb, if_true] at hl
    split at hl
    · cases hl; rfl
    · exact ListRes.noConfusion hl
  · intro hne
    cases hF : s.filter (fun d => d.motor_owner_mobile == some caller.email) with
    | nil => exact absurd hF hne
    | cons a rest => simp [getTrips, hb, hF]
  · intro tid t hf
    constructor
    · intro hne
      simp [getTrip, hf, hrole, hne]
    · intro heq
      simp [getTrip, hf, heq]
  · intro tid hf
    simp [getTrip, hf]

/-- Witness for C8 (amended): the owner `77`, who owns the stored trip,
gets a server error from the listing while a trip-less motor-owner `88`
gets the empty list; the owner fetches the trip in full and `88` is
denied. -/
theorem C8_owner_visibility_witness :
    getTrips ownerU c5store1 = ListRes.error ∧
    getTrips { email := "88", role := "motor_owner" } c5store1 = ListRes.ok [] ∧
    getTrip ownerU (mkTripId 2026 1) c5store1 = GetRes.ok c3pair.2 ∧
    getTrip { email := "88", role := "motor_owner" } (mkTripId 2026 1) c5store1 =
      GetRes.forbidden := by
  refine ⟨?_, by decide, ?_, ?_⟩
  · exact (C8_owner_visibility ownerU c5store1 rfl).2.1 (by decide)
  · exact ((C8_owner_visibility ownerU c5store1 rfl).2.2.1 (mkTripId 2026 1) c3pair.2
      (by decide)).2 (by decide)
  · exact ((C8_owner_visibility { email := "88", role := "motor_owner" } c5store1 rfl).2.2.1
      (mkTripId 2026 1) c3pair.2 (by decide)).1 (by decide)

/-- Claim C9: party analytics groups the collection by
`(party_name, party_mobile)` and reports, per group, the trip count, the
sum of `party_freight`, the sum of `party_advance` (absent advances
contributing 0), and their difference as the outstanding balance; the
group row is unique. -/
theorem C9_party_aggregation (s : Store) (nm mb : String)
    (hocc : ∃ t ∈ s, t.party_name = nm ∧ t.party_mobile = mb) :
    ∃ r ∈ partyAnalytics s,
      r.party_name = nm ∧ r.party_mobile = mb ∧
      r.total_trips = (s.filter (fun t => partyKey t == (nm, mb))).length ∧
      r.total_freight =
        ((s.filter (fun t => partyKey t == (nm, mb))).map (fun t => t.party_freight)).sum ∧
      r.total_paid =
        ((s.filter (fun t => partyKey t == (nm, mb))).map
          (fun t => t.party_advance.getD 0)).sum ∧
      r.outstanding_balance = r.total_freight - r.total_paid ∧
      (∀ r' ∈ partyAnalytics s, r'.party_name = nm → r'.party_mobile = mb → r' = r) := by
  obtain ⟨t, ht, h1, h2⟩ := hocc
  have hkey : (nm, mb) ∈ (s.map partyKey).dedup := by
    rw [List.mem_dedup]
    exact List.mem_map.mpr ⟨t, ht, by simp [partyKey, h1, h2]⟩
  refine ⟨partyRowFor s (nm, mb), List.mem_map.mpr ⟨(nm, mb), hkey, rfl⟩,
    rfl, rfl, rfl, rfl, rfl, rfl, ?_⟩
  intro r' hr' hn hm
  obtain ⟨k', hk', rfl⟩ := List.mem_map.mp hr'
  have hk : k' = (nm, mb) := Prod.ext hn hm
  rw [hk]

/-- Witness for C9: the spec's aggregation example — two trips for
`(P, 91)` with freights 75000/60000 and advances 25000/15000 — yields
`total_trips 2`, `total_freight 135000`, `total_paid 40000`,
`outstanding_balance 95000`. -/
theorem C9_party_aggregation_witness :
    ∃ r ∈ partyAnalytics c9store,
      r.party_name = "P" ∧ r.party_mobile = "91" ∧ r.total_trips = 2 ∧
      r.total_freight = 135000 ∧ r.total_paid = 40000 ∧
      r.outstanding_balance = 95000 := by
  obtain ⟨r, hr, h1, h2, h3, h4, h5, h6, -⟩ :=
    C9_party_aggregation c9store "P" "91" (by decide)
  have hf : r.total_freight = 135000 := h4.trans (by decide)
  have hp : r.total_paid = 40000 := h5.trans (by decide)
  rw [hf, hp] at h6
  exact ⟨r, hr, h1, h2, h3.trans (by decide), hf, hp, h6.trans (by decide)⟩

/-- `update_trip` answers `Forbidden` exactly when the trip exists, the
caller's role is `user`, and the stored status is `Completed`. -/
lemma updateTrip_forbidden_iff (c : UserT) (tid : Str) (u : TripUpdateIn) (s : Store) :
    updateTrip c tid u s = UpdRes.forbidden ↔
      ∃ t : TripDoc, findTrip tid s = some t ∧ c.role = "user" ∧
        t.status = "Completed" := by
  cases hf : findTrip tid s with
  | none => simp [updateTrip, hf]
  | some t =>
    by_cases hcond : (c.role == "user" && t.status == "Completed") = true
    · have hc := hcond
      simp only [Bool.and_eq_true, beq_iff_eq] at hc
      simp only [updateTrip, hf, hcond, if_true]
      exact iff_of_true trivial ⟨t, rfl, hc.1, hc.2⟩
    · have hcf : (c.role == "user" && t.status == "Completed") = false := by
        simpa using hcond
      constructor
      · intro h
        exfalso
        simp only [updateTrip, hf, hcf, Bool.false_eq_true, if_false] at h
        cases hm : mergeTrip t u with
        | none => rw [hm] at h; exact absurd h (by simp)
        | some t' =>
          rw [hm] at h
          cases hu : updHasField u <;> simp [hu] at h
      · rintro ⟨t', ht', hrole, hstat⟩
        cases Option.some.inj ht'
        exact absurd (by simp [hrole, hstat]) hcond

/-- Claim C10: `update_trip` applies no ownership restriction and no field
projection.  `Forbidden` arises exactly when the trip exists, the caller's
role is `user`, and the stored status is `Completed` — so a motor-owner,
whatever their identity, is never blocked; the outcome does not depend on
the caller's identity at all; and a successful update returns exactly the
persisted document, whose `party_freight` is the merged (never projected)
value. -/
theorem C10_update_no_ownership (caller : UserT) (tid : Str) (u : TripUpdateIn)
    (s : Store) :
    (updateTrip caller tid u s = UpdRes.forbidden ↔
      ∃ t : TripDoc, findTrip tid s = some t ∧ caller.role = "user" ∧
        t.status = "Completed") ∧
    (∀ e : String,
      updateTrip { email := e, role := caller.role } tid u s =
        updateTrip caller tid u s) ∧
    (∀ (d : TripDoc) (s' : Store), updateTrip caller tid u s = UpdRes.ok d s' →
      findTrip tid s' = some d ∧
        ∃ t : TripDoc, findTrip tid s = some t ∧
          d.party_freight = (jn u.party_freight).getD t.party_freight) := by
  refine ⟨updateTrip_forbidden_iff caller tid u s, ?_, ?_⟩
  · intro e
    cases caller with
    | mk em ro => exact updateTrip_role_only e em ro tid u s
  · intro d s' h
    obtain ⟨t, hf, -, hm, hs⟩ := updateTrip_ok_elim h
    obtain ⟨hid, -, -, -, -, -, -, -, -, -, -, -, hfreight, -⟩ := mergeTrip_fields hm
    constructor
    · rw [hs]
      exact findTrip_setFirst (hid.trans (findTrip_id hf)) (by rw [hf]; rfl)
    · exact ⟨t, hf, hfreight⟩

/-- Witness for C10: a motor-owner whose identity differs from the trip's
`motor_owner_mobile` is not rejected when updating a completed trip, while
the `user` role is. -/
theorem C10_update_no_ownership_witness :
    updateTrip { email := "99", role := "motor_owner" } (mkTripId 2026 1) c6upd c7store ≠
        UpdRes.forbidden ∧
    updateTrip plainU (mkTripId 2026 1) c6upd c7store = UpdRes.forbidden := by
  constructor
  · intro hcontra
    obtain ⟨t, -, hrole, -⟩ :=
      (C10_update_no_ownership { email := "99", role := "motor_owner" } (mkTripId 2026 1)
        c6upd c7store).1.mp hcontra
    exact absurd hrole (by decide)
  · exact (C10_update_no_ownership plainU (mkTripId 2026 1) c6upd c7store).1.mpr
      ⟨c7doc, by decide, rfl, by decide⟩

end TMS
